import Mathlib

/-!
Verification development for the ETH gas price checker
(src/gas_price_checker.py).

The script polls the Etherscan gas oracle, compares the reported price
against two thresholds, and sends / edits / deletes a single Telegram
notification message. This file gives a shallow embedding of:

* the notifier logic of check_gas_price_and_notify (lines 93-130),
  as a pure step function on the global state
  (last_message_id_in_range, last_price);
* the fetch-failure paths of the same function (requests.RequestException
  caught and logged; an invalid payload shape logs an error and then hits
  the unconditional `last_price = propose_gas_price` assignment on line
  128 with the local name unbound, raising an uncaught NameError);
* retry_with_backoff (lines 133-143), with Python exceptions embedded as
  Except values and the try/except statement as an explicit combinator;
* the timing skeleton of main_loop (lines 146-156) together with the
  handle_shutdown signal handler (lines 159-162), as a discrete-time
  loop model.

Prices are floats in the source; they are modelled as rationals, which is
exact for every value the development evaluates.
-/

namespace GasPriceChecker

/-- The two thresholds, read once at startup (source lines 38 and 43). -/
structure Config where
  gas_fee_lower_threshold : Rat
  gas_fee_upper_threshold : Rat
deriving DecidableEq

/-- The mutable globals of the script (source lines 59-60):
last_message_id_in_range starts as None, last_price starts as -1. -/
structure NotifierState where
  last_message_id_in_range : Option Nat
  last_price : Rat
deriving DecidableEq

/-- Initial global state (source lines 59-60). -/
def initialState : NotifierState :=
  { last_message_id_in_range := Option.none, last_price := -1 }

/-- Which chat-mutation call (if any) a check issues. -/
inductive ChatAction
  | noAction
  | send
  | edit
  | delete
deriving DecidableEq

/-- Outcomes of the Telegram calls a check may issue, supplied by the
environment. send_telegram_message (lines 63-71) returns the new
message id on success and None when the API call raises TelegramError;
edit_telegram_message and delete_telegram_message (lines 74-90) absorb
TelegramError internally and return nothing, so only a success flag is
observable. -/
structure ChatEnv where
  sendResult : Option Nat
  editOk : Bool
  deleteOk : Bool
deriving DecidableEq

/-- The decision core of check_gas_price_and_notify on a successfully
fetched price (source lines 113-128): the if/elif/else ladder followed by
the unconditional `last_price = propose_gas_price` assignment.

Note that the state assignments do not depend on whether the edit or
delete call succeeded: a failed edit changes nothing either way, and
after the delete call the reference is cleared unconditionally (line
122). A failed send, however, stores None (the return value of
send_telegram_message) into last_message_id_in_range (line 116). -/
def checkStep (cfg : Config) (env : ChatEnv) (s : NotifierState) (p : Rat) :
    ChatAction × NotifierState :=
  if p < cfg.gas_fee_lower_threshold then
    match s.last_message_id_in_range with
    | Option.none =>
        (ChatAction.send, { last_message_id_in_range := env.sendResult, last_price := p })
    | Option.some m =>
        if s.last_price ≠ p then
          (ChatAction.edit, { last_message_id_in_range := Option.some m, last_price := p })
        else
          (ChatAction.noAction, { last_message_id_in_range := Option.some m, last_price := p })
  else if cfg.gas_fee_upper_threshold < p ∧ s.last_message_id_in_range ≠ Option.none then
    (ChatAction.delete, { last_message_id_in_range := Option.none, last_price := p })
  else
    (ChatAction.noAction, { last_message_id_in_range := s.last_message_id_in_range, last_price := p })

/-- Outcome of one poll tick as seen by the notifier: either the fetch
succeeded with a price, or it failed. httpError covers
requests.RequestException (network errors, raise_for_status, and
malformed JSON, whose decode error is a RequestException subclass);
malformed covers a well-formed JSON payload with status not equal to
the string 1 or a missing ProposeGasPrice field. -/
inductive FetchResult
  | httpError
  | malformed
  | ok (price : Rat)
deriving DecidableEq

/-- How one call of check_gas_price_and_notify terminates: normally
(with the chat action it issued, noAction when it issued none), or by
raising an exception that escapes the function. -/
inductive CheckResult
  | normal (action : ChatAction)
  | raised
deriving DecidableEq

/-- One full call of check_gas_price_and_notify (source lines 93-130).

* httpError: the RequestException is caught on line 129 and logged; no
  state is touched and no chat call is issued.
* malformed: the error is logged (line 127), then line 128 evaluates
  `last_price = propose_gas_price` with propose_gas_price unbound, so an
  UnboundLocalError (a NameError, not a RequestException) escapes the
  function; no state is touched and no chat call is issued.
* ok p: the decision ladder runs and the state is committed. -/
def check_gas_price_and_notify (cfg : Config) (env : ChatEnv) (s : NotifierState) :
    FetchResult → CheckResult × NotifierState
  | FetchResult.httpError => (CheckResult.normal ChatAction.noAction, s)
  | FetchResult.malformed => (CheckResult.raised, s)
  | FetchResult.ok p =>
      let r := checkStep cfg env s p
      (CheckResult.normal r.1, r.2)

/-- Run a sequence of checks, collecting each check's outcome. -/
def runChecks (cfg : Config) : NotifierState → List (FetchResult × ChatEnv) →
    List CheckResult × NotifierState
  | s, [] => ([], s)
  | s, (fr, env) :: rest =>
      let r := check_gas_price_and_notify cfg env s fr
      let t := runChecks cfg r.2 rest
      (r.1 :: t.1, t.2)

/-- A successful fetch of price p with all Telegram calls succeeding;
m is the message id the send call would return. -/
def okStep (p : Rat) (m : Nat) : FetchResult × ChatEnv :=
  (FetchResult.ok p, { sendResult := Option.some m, editOk := true, deleteOk := true })

/-- C1: with lower threshold 30 and upper threshold 50, starting from the
initial state (no active message reference, sentinel last price), feeding
the check logic the successfully fetched price sequence
[60, 25, 25, 40, 55] produces exactly the chat-action sequence
[none, send, none, none, delete] and leaves the machine in Idle
(active_message_ref = None). -/
theorem C1_scenario_60_25_25_40_55 :
    runChecks { gas_fee_lower_threshold := 30, gas_fee_upper_threshold := 50 } initialState
        [okStep 60 100, okStep 25 100, okStep 25 100, okStep 40 100, okStep 55 100]
      = ([CheckResult.normal ChatAction.noAction,
          CheckResult.normal ChatAction.send,
          CheckResult.normal ChatAction.noAction,
          CheckResult.normal ChatAction.noAction,
          CheckResult.normal ChatAction.delete],
         { last_message_id_in_range := Option.none, last_price := 55 }) := by
  decide

/-- The committed last_price is always the fetched price (line 128 runs
unconditionally on the success path). -/
theorem checkStep_last_price (cfg : Config) (env : ChatEnv) (s : NotifierState) (p : Rat) :
    (checkStep cfg env s p).2.last_price = p := by
  cases h : s.last_message_id_in_range <;>
    simp only [checkStep, h] <;> split_ifs <;> rfl

/-- A send call is issued only from Idle (line 115 guards on
last_message_id_in_range is None). -/
theorem checkStep_send_requires_idle (cfg : Config) (env : ChatEnv) (s : NotifierState)
    (p : Rat) (h : (checkStep cfg env s p).1 = ChatAction.send) :
    s.last_message_id_in_range = Option.none := by
  cases hm : s.last_message_id_in_range with
  | none => rfl
  | some m =>
      exfalso
      revert h
      simp only [checkStep, hm]
      split_ifs <;> simp

/-- A delete action leaves the machine with no active message reference
(line 122). -/
theorem checkStep_delete_clears (cfg : Config) (env : ChatEnv) (s : NotifierState)
    (p : Rat) (h : (checkStep cfg env s p).1 = ChatAction.delete) :
    (checkStep cfg env s p).2.last_message_id_in_range = Option.none := by
  cases hm : s.last_message_id_in_range <;>
    revert h <;> simp only [checkStep, hm] <;> split_ifs <;> simp

/-- C7: for every price p with lower ≤ p ≤ upper, a check performed while
Alerting (active_message_ref = Some m) issues no chat action and keeps the
reference unchanged: once alerting, the alert is cleared only by a price
strictly above upper, never by merely rising to or above lower. -/
theorem C7_hysteresis_band (cfg : Config) (env : ChatEnv) (s : NotifierState)
    (m : Nat) (p : Rat)
    (href : s.last_message_id_in_range = Option.some m)
    (h1 : cfg.gas_fee_lower_threshold ≤ p)
    (h2 : p ≤ cfg.gas_fee_upper_threshold) :
    checkStep cfg env s p
      = (ChatAction.noAction, { last_message_id_in_range := Option.some m, last_price := p }) := by
  have h1' : ¬ p < cfg.gas_fee_lower_threshold := not_lt.mpr h1
  have h2' : ¬ cfg.gas_fee_upper_threshold < p := not_lt.mpr h2
  simp [checkStep, h1', h2', href]

/-- Witness for C7 at lower = 30, upper = 50, p = 40, active reference 5. -/
theorem C7_hysteresis_band_witness :
    checkStep { gas_fee_lower_threshold := 30, gas_fee_upper_threshold := 50 }
        { sendResult := Option.none, editOk := true, deleteOk := true }
        { last_message_id_in_range := Option.some 5, last_price := 10 } 40
      = (ChatAction.noAction,
         { last_message_id_in_range := Option.some 5, last_price := 40 }) :=
  C7_hysteresis_band _ _ _ 5 40 rfl (by norm_num) (by norm_num)

/-- C8: while Alerting with last_price already equal to the below-threshold
price p, a check issues no chat action and leaves the state fixed, so every
subsequent check with the same price is also a no-op: repeated identical
below-threshold readings are idempotent after the first. -/
theorem C8_identical_reading_idempotent (cfg : Config) (env : ChatEnv)
    (m : Nat) (p : Rat) (s : NotifierState)
    (href : s.last_message_id_in_range = Option.some m)
    (hlast : s.last_price = p)
    (hp : p < cfg.gas_fee_lower_threshold) :
    checkStep cfg env s p = (ChatAction.noAction, s) ∧
    ∀ n, runChecks cfg s (List.replicate n (FetchResult.ok p, env))
        = (List.replicate n (CheckResult.normal ChatAction.noAction), s) := by
  have hstep : checkStep cfg env s p = (ChatAction.noAction, s) := by
    obtain ⟨r, lp⟩ := s
    simp only at href hlast
    subst href
    subst hlast
    simp [checkStep, hp]
  refine ⟨hstep, ?_⟩
  intro n
  induction n with
  | zero => simp [runChecks]
  | succ k ih =>
      simp [List.replicate_succ, runChecks, check_gas_price_and_notify, hstep, ih]

/-- Witness for C8: Alerting on message 5 with last_price 25, price 25 again. -/
theorem C8_identical_reading_idempotent_witness :
    checkStep { gas_fee_lower_threshold := 30, gas_fee_upper_threshold := 50 }
        { sendResult := Option.none, editOk := true, deleteOk := true }
        { last_message_id_in_range := Option.some 5, last_price := 25 } 25
      = (ChatAction.noAction,
         { last_message_id_in_range := Option.some 5, last_price := 25 }) :=
  (C8_identical_reading_idempotent _ _ 5 25 _ rfl rfl (by norm_num)).1

/-- C3 counterexample: with thresholds 30/50, from the initial state, price
25 triggers a send; when the Telegram call fails, send_telegram_message
returns None (line 71) and line 116 stores that None, so the machine stays
Idle (no message reference), while a successful send stores Some 1 and the
machine is Alerting. The failed-send transition is therefore NOT committed
as it would be on success, contrary to the claim. -/
theorem C3_failed_send_not_committed :
    (checkStep { gas_fee_lower_threshold := 30, gas_fee_upper_threshold := 50 }
        { sendResult := Option.none, editOk := true, deleteOk := true }
        initialState 25).1 = ChatAction.send ∧
    (checkStep { gas_fee_lower_threshold := 30, gas_fee_upper_threshold := 50 }
        { sendResult := Option.none, editOk := true, deleteOk := true }
        initialState 25).2.last_message_id_in_range = Option.none ∧
    (checkStep { gas_fee_lower_threshold := 30, gas_fee_upper_threshold := 50 }
        { sendResult := Option.some 1, editOk := true, deleteOk := true }
        initialState 25).2.last_message_id_in_range = Option.some 1 := by
  decide

/-- C3 (amended): the committed state never depends on whether an edit or
delete call succeeded (those failures are absorbed and the transition is
committed, including the unconditional clearing of the reference after a
delete and the unconditional last_price update); a failed send, however,
leaves active_message_ref = None — the machine stays Idle and the send
will be re-attempted on the next qualifying tick. -/
theorem C3_mutation_failure_commit (cfg : Config) (s : NotifierState) (p : Rat)
    (r : Option Nat) (e₁ d₁ e₂ d₂ : Bool) :
    checkStep cfg { sendResult := r, editOk := e₁, deleteOk := d₁ } s p
      = checkStep cfg { sendResult := r, editOk := e₂, deleteOk := d₂ } s p ∧
    (checkStep cfg { sendResult := r, editOk := e₁, deleteOk := d₁ } s p).2.last_price = p ∧
    (p < cfg.gas_fee_lower_threshold → s.last_message_id_in_range = Option.none →
      checkStep cfg { sendResult := Option.none, editOk := e₁, deleteOk := d₁ } s p
        = (ChatAction.send,
           { last_message_id_in_range := Option.none, last_price := p })) := by
  refine ⟨rfl, checkStep_last_price _ _ _ _, ?_⟩
  intro hp href
  simp [checkStep, hp, href]

/-- Witness for C3 (amended), instantiating the failed-send clause at
thresholds 30/50, initial state, price 25. -/
theorem C3_mutation_failure_commit_witness :
    checkStep { gas_fee_lower_threshold := 30, gas_fee_upper_threshold := 50 }
        { sendResult := Option.none, editOk := true, deleteOk := true }
        initialState 25
      = (ChatAction.send,
         { last_message_id_in_range := Option.none, last_price := 25 }) :=
  (C3_mutation_failure_commit
      { gas_fee_lower_threshold := 30, gas_fee_upper_threshold := 50 }
      initialState 25 Option.none true true true true).2.2 (by norm_num) rfl

/-- The notifier state together with the chat-side world: the list of
message ids currently live (delivered and not deleted) in the chat. -/
structure World where
  state : NotifierState
  live : List Nat
deriving DecidableEq

/-- Effect of one successful-fetch check on the chat: a send that the API
accepted posts a new live message (the id send_telegram_message returned);
a failed send posts nothing; a delete removes the referenced message when
the API call succeeds and leaves it live (now orphaned) when it fails;
edits never change which messages are live. The notifier state update is
exactly checkStep. -/
def liveStep (cfg : Config) (env : ChatEnv) (w : World) (p : Rat) : World :=
  let r := checkStep cfg env w.state p
  match r.1 with
  | ChatAction.send =>
      { state := r.2,
        live := match env.sendResult with
                | Option.some m => m :: w.live
                | Option.none => w.live }
  | ChatAction.delete =>
      { state := r.2,
        live := if env.deleteOk then
                  match w.state.last_message_id_in_range with
                  | Option.some m => w.live.erase m
                  | Option.none => w.live
                else w.live }
  | _ => { state := r.2, live := w.live }

/-- One full check at the world level: a failing fetch issues no chat call
and commits whatever state check_gas_price_and_notify leaves (which is the
unchanged state). -/
def liveCheck (cfg : Config) (env : ChatEnv) (w : World) : FetchResult → World
  | FetchResult.ok p => liveStep cfg env w p
  | fr => { state := (check_gas_price_and_notify cfg env w.state fr).2, live := w.live }

/-- Run a sequence of checks at the world level. -/
def runLive (cfg : Config) : World → List (FetchResult × ChatEnv) → World
  | w, [] => w
  | w, (fr, env) :: rest => runLive cfg (liveCheck cfg env w fr) rest

/-- At process start no message has been sent. -/
def initialWorld : World := { state := initialState, live := [] }

/-- The claimed invariant, decidably: at most one live message, and the
active reference (when present) names a live message. -/
def atMostOneLive (w : World) : Bool :=
  decide (w.live.length ≤ 1) &&
    (match w.state.last_message_id_in_range with
     | Option.none => true
     | Option.some m => decide (w.live = [m]))

/-- Strengthened invariant used for the induction: the live chat content
mirrors the reference exactly. -/
def refLiveInv (w : World) : Prop :=
  match w.state.last_message_id_in_range with
  | Option.none => w.live = []
  | Option.some m => w.live = [m]

theorem liveStep_refLiveInv (cfg : Config) (env : ChatEnv) (w : World) (p : Rat)
    (hd : env.deleteOk = true) (hw : refLiveInv w) : refLiveInv (liveStep cfg env w p) := by
  cases hm : w.state.last_message_id_in_range with
  | none =>
      have hl : w.live = [] := by simpa [refLiveInv, hm] using hw
      by_cases hp : p < cfg.gas_fee_lower_threshold
      · cases hr : env.sendResult <;>
          simp [liveStep, checkStep, hp, hm, hr, refLiveInv, hl]
      · simp [liveStep, checkStep, hp, hm, refLiveInv, hl]
  | some m =>
      have hl : w.live = [m] := by simpa [refLiveInv, hm] using hw
      by_cases hp : p < cfg.gas_fee_lower_threshold
      · by_cases he : w.state.last_price ≠ p <;>
          simp [liveStep, checkStep, hp, hm, he, refLiveInv, hl]
      · by_cases hq : cfg.gas_fee_upper_threshold < p
        · simp [liveStep, checkStep, hp, hm, hq, hd, refLiveInv, hl,
            List.erase_cons_head]
        · simp [liveStep, checkStep, hp, hm, hq, refLiveInv, hl]

theorem liveCheck_refLiveInv (cfg : Config) (env : ChatEnv) (w : World)
    (fr : FetchResult) (hd : env.deleteOk = true) (hw : refLiveInv w) :
    refLiveInv (liveCheck cfg env w fr) := by
  cases fr with
  | ok p => exact liveStep_refLiveInv cfg env w p hd hw
  | httpError => exact hw
  | malformed => exact hw

theorem runLive_refLiveInv (cfg : Config) :
    ∀ (steps : List (FetchResult × ChatEnv)) (w : World),
      (∀ e ∈ steps, e.2.deleteOk = true) → refLiveInv w →
      refLiveInv (runLive cfg w steps) := by
  intro steps
  induction steps with
  | nil => intro w _ hw; exact hw
  | cons e rest ih =>
      intro w h hw
      obtain ⟨fr, env⟩ := e
      exact ih _ (fun x hx => h x (List.mem_cons_of_mem _ hx))
        (liveCheck_refLiveInv cfg env w fr (h _ (List.mem_cons_self _ _)) hw)

theorem atMostOneLive_of_refLiveInv (w : World) (hw : refLiveInv w) :
    atMostOneLive w = true := by
  cases hm : w.state.last_message_id_in_range with
  | none =>
      have hl : w.live = [] := by simpa [refLiveInv, hm] using hw
      simp [atMostOneLive, hm, hl]
  | some m =>
      have hl : w.live = [m] := by simpa [refLiveInv, hm] using hw
      simp [atMostOneLive, hm, hl]

/-- The weaker property that holds over every trace, chat failures
included: the active reference, when set, names a message that is live in
the chat. -/
def refNamesLive (w : World) : Bool :=
  match w.state.last_message_id_in_range with
  | Option.none => true
  | Option.some m => w.live.contains m

theorem liveStep_refNamesLive (cfg : Config) (env : ChatEnv) (w : World) (p : Rat)
    (hw : refNamesLive w = true) : refNamesLive (liveStep cfg env w p) = true := by
  cases hm : w.state.last_message_id_in_range with
  | none =>
      by_cases hp : p < cfg.gas_fee_lower_threshold
      · cases hr : env.sendResult <;>
          simp [liveStep, checkStep, hp, hm, hr, refNamesLive]
      · simp [liveStep, checkStep, hp, hm, refNamesLive]
  | some m =>
      have hl : w.live.contains m = true := by
        simpa [refNamesLive, hm] using hw
      have hmem : m ∈ w.live := by simpa using hl
      by_cases hp : p < cfg.gas_fee_lower_threshold
      · by_cases he : w.state.last_price ≠ p <;>
          simp [liveStep, checkStep, hp, hm, he, refNamesLive, hmem]
      · by_cases hq : cfg.gas_fee_upper_threshold < p
        · simp [liveStep, checkStep, hp, hm, hq, refNamesLive]
        · simp [liveStep, checkStep, hp, hm, hq, refNamesLive, hmem]

theorem liveCheck_refNamesLive (cfg : Config) (env : ChatEnv) (w : World)
    (fr : FetchResult) (hw : refNamesLive w = true) :
    refNamesLive (liveCheck cfg env w fr) = true := by
  cases fr with
  | ok p => exact liveStep_refNamesLive cfg env w p hw
  | httpError => exact hw
  | malformed => exact hw

theorem runLive_refNamesLive (cfg : Config) :
    ∀ (steps : List (FetchResult × ChatEnv)) (w : World),
      refNamesLive w = true → refNamesLive (runLive cfg w steps) = true := by
  intro steps
  induction steps with
  | nil => intro w hw; exact hw
  | cons e rest ih =>
      intro w hw
      obtain ⟨fr, env⟩ := e
      exact ih _ (liveCheck_refNamesLive cfg env w fr hw)

/-- C2 counterexample: the claimed invariant is violated when a delete
call fails. Trace from the initial state: price 25 sends message 7, price
55 issues a delete whose Telegram call fails — the message stays live in
the chat but line 122 clears the reference anyway — and the next price 25
sends a fresh message 8. Two notification messages are now outstanding,
so `at most one outstanding message exists in every state reachable by
any sequence of checks` is false on the code. -/
theorem C2_failed_delete_two_outstanding :
    atMostOneLive
      (runLive { gas_fee_lower_threshold := 30, gas_fee_upper_threshold := 50 }
        initialWorld
        [okStep 25 7,
         (FetchResult.ok 55,
          { sendResult := Option.some 0, editOk := true, deleteOk := false }),
         okStep 25 8]) = false := by
  decide

/-- C2 (amended): over every sequence of checks from the initial state in
which the issued delete calls succeed, at most one outstanding
notification message exists and active_message_ref is either empty or
references exactly that one live message. Over every sequence whatsoever
— chat failures included — active_message_ref, when set, still names a
live message, a send is issued only when active_message_ref is None, and
a delete clears the reference; but a failed delete orphans the old
message (the code clears the reference regardless, accepting the drift),
so the at-most-one count can then be exceeded by a later send. -/
theorem C2_at_most_one_outstanding_amended (cfg : Config)
    (steps : List (FetchResult × ChatEnv))
    (h : ∀ e ∈ steps, e.2.deleteOk = true) :
    atMostOneLive (runLive cfg initialWorld steps) = true ∧
    (∀ steps2 : List (FetchResult × ChatEnv),
        refNamesLive (runLive cfg initialWorld steps2) = true) ∧
    (∀ env s p, (checkStep cfg env s p).1 = ChatAction.send →
        s.last_message_id_in_range = Option.none) ∧
    (∀ env s p, (checkStep cfg env s p).1 = ChatAction.delete →
        (checkStep cfg env s p).2.last_message_id_in_range = Option.none) := by
  refine ⟨?_, ?_, ?_, ?_⟩
  · exact atMostOneLive_of_refLiveInv _
      (runLive_refLiveInv cfg steps initialWorld h rfl)
  · intro steps2
    exact runLive_refNamesLive cfg steps2 initialWorld rfl
  · intro env s p hs
    exact checkStep_send_requires_idle cfg env s p hs
  · intro env s p hs
    exact checkStep_delete_clears cfg env s p hs

/-- Witness for C2 (amended): a send at price 25 followed by a delete at
price 55, with all chat calls succeeding. -/
theorem C2_at_most_one_outstanding_amended_witness :
    atMostOneLive
      (runLive { gas_fee_lower_threshold := 30, gas_fee_upper_threshold := 50 }
        initialWorld [okStep 25 7, okStep 55 7]) = true :=
  (C2_at_most_one_outstanding_amended
      { gas_fee_lower_threshold := 30, gas_fee_upper_threshold := 50 }
      [okStep 25 7, okStep 55 7] (by decide)).1

/-- Python try/except: run the body; a raised exception is passed to the
handler, which may itself return or re-raise. -/
def tryExcept {ε α : Type} (body : Except ε α) (handler : ε → Except ε α) : Except ε α :=
  match body with
  | Except.ok a => Except.ok a
  | Except.error e => handler e

/-- Control signal of the for-loop body in retry_with_backoff: break after
a successful attempt, continue after a handled failure. -/
inductive LoopSig
  | brk
  | cont
deriving DecidableEq

/-- One iteration of the retry loop body (source lines 135-143) at attempt
number a: try the task and break on success; on any exception, log, and
when a < retries also sleep delay * a before continuing. The optional
Int is the sleep performed. -/
def retryAttempt {ε : Type} (task : Nat → Except ε Unit) (retries : Nat) (delay : Int)
    (a : Nat) : Except ε (LoopSig × Option Int) :=
  tryExcept (Except.map (fun _ => (LoopSig.brk, (Option.none : Option Int))) (task a))
    (fun _ =>
      if a < retries then Except.ok (LoopSig.cont, Option.some (delay * (a : Int)))
      else Except.ok (LoopSig.cont, Option.none))

/-- The for-loop of retry_with_backoff, driven by the current attempt
number a and the number of iterations remaining in range(1, retries + 1).
Returns the number of task invocations together with the list of backoff
sleeps performed, in order. -/
def retryLoop {ε : Type} (task : Nat → Except ε Unit) (retries : Nat) (delay : Int) :
    Nat → Nat → Except ε (Nat × List Int)
  | _, 0 => Except.ok (0, [])
  | a, rem+1 =>
    match retryAttempt task retries delay a with
    | Except.error e => Except.error e
    | Except.ok (LoopSig.brk, _) => Except.ok (1, [])
    | Except.ok (LoopSig.cont, sl) =>
      match retryLoop task retries delay (a+1) rem with
      | Except.error e => Except.error e
      | Except.ok (k, ss) => Except.ok (k+1, sl.toList ++ ss)

/-- retry_with_backoff (source lines 133-143). The task is indexed by the
attempt number (starting at 1); Python range(1, retries + 1) performs
max(retries, 0) iterations, hence Int.toNat. -/
def retry_with_backoff {ε : Type} (task : Nat → Except ε Unit) (retries : Int)
    (delay : Int) : Except ε (Nat × List Int) :=
  retryLoop task retries.toNat delay 1 retries.toNat

theorem retryLoop_spec {ε : Type} (task : Nat → Except ε Unit) (retriesN : Nat)
    (delay : Int) :
    ∀ (rem a : Nat), a + rem = retriesN + 1 → 1 ≤ a →
    ∃ k ss, retryLoop task retriesN delay a rem = Except.ok (k, ss) ∧
      k ≤ rem ∧
      (∀ i, i < k - 1 → ∃ e, task (a + i) = Except.error e) ∧
      (1 ≤ rem → 1 ≤ k ∧ (task (a + k - 1) = Except.ok () ∨ k = rem)) ∧
      ss = (List.range (k - 1)).map (fun i : Nat => delay * ((a : Int) + (i : Int))) := by
  intro rem
  induction rem with
  | zero =>
      intro a _ _
      refine ⟨0, [], rfl, le_refl 0, ?_, ?_, rfl⟩
      · intro i hi; exact absurd hi (by omega)
      · intro h1; exact absurd h1 (by omega)
  | succ m ih =>
      intro a hsum ha
      cases ht : task a with
      | ok u =>
          cases u
          have hatt : retryAttempt task retriesN delay a
              = Except.ok (LoopSig.brk, Option.none) := by
            simp [retryAttempt, tryExcept, ht, Except.map]
          refine ⟨1, [], by simp [retryLoop, hatt], by omega, ?_, ?_, by simp⟩
          · intro i hi; exact absurd hi (by omega)
          · intro _
            refine ⟨le_refl 1, Or.inl ?_⟩
            have hidx : a + 1 - 1 = a := by omega
            rw [hidx, ht]
      | error e =>
          by_cases hlt : a < retriesN
          · have hm1 : 1 ≤ m := by omega
            have hatt : retryAttempt task retriesN delay a
                = Except.ok (LoopSig.cont, Option.some (delay * (a : Int))) := by
              simp [retryAttempt, tryExcept, ht, hlt, Except.map]
            obtain ⟨k', ss', hrun, hk'le, hfail, hlast, hss⟩ := ih (a+1) (by omega) (by omega)
            obtain ⟨hk'1, hstop⟩ := hlast hm1
            refine ⟨k' + 1, delay * (a : Int) :: ss', ?_, by omega, ?_, ?_, ?_⟩
            · simp [retryLoop, hatt, hrun]
            · intro i hi
              cases i with
              | zero => exact ⟨e, by simpa using ht⟩
              | succ j =>
                  have hj : j < k' - 1 := by omega
                  obtain ⟨e', he'⟩ := hfail j hj
                  have hidx : a + (j + 1) = (a + 1) + j := by omega
                  rw [hidx]
                  exact ⟨e', he'⟩
            · intro _
              refine ⟨by omega, ?_⟩
              rcases hstop with hok | hkr
              · left
                have hidx : a + (k' + 1) - 1 = (a + 1) + k' - 1 := by omega
                rw [hidx]
                exact hok
              · right; omega
            · subst hss
              obtain ⟨k'', rfl⟩ : ∃ k'', k' = k'' + 1 := ⟨k' - 1, by omega⟩
              simp only [Nat.add_sub_cancel, List.range_succ_eq_map, List.map_cons,
                List.map_map, Nat.cast_zero, add_zero]
              congr 1
              have hfe : (fun i : Nat => delay * (((a + 1 : Nat) : Int) + (i : Int)))
                  = ((fun i : Nat => delay * ((a : Int) + (i : Int))) ∘ Nat.succ) := by
                funext i
                simp only [Function.comp_apply]
                push_cast
                ring
              rw [hfe]
          · have hm0 : m = 0 := by omega
            have hatt : retryAttempt task retriesN delay a
                = Except.ok (LoopSig.cont, Option.none) := by
              simp [retryAttempt, tryExcept, ht, hlt, Except.map]
            subst hm0
            refine ⟨1, [], ?_, le_refl 1, ?_, ?_, by simp⟩
            · simp [retryLoop, hatt]
            · intro i hi; exact absurd hi (by omega)
            · intro _; exact ⟨le_refl 1, Or.inr rfl⟩

/-- The retry loop never propagates an exception: every attempt is run
under except Exception, whose handler only logs and sleeps. -/
theorem retryLoop_isOk {ε : Type} (task : Nat → Except ε Unit) (retriesN : Nat)
    (delay : Int) :
    ∀ (rem a : Nat), ∃ v, retryLoop task retriesN delay a rem = Except.ok v := by
  intro rem
  induction rem with
  | zero => intro a; exact ⟨(0, []), rfl⟩
  | succ m ih =>
      intro a
      cases ht : task a with
      | ok u =>
          cases u
          exact ⟨(1, []), by simp [retryLoop, retryAttempt, tryExcept, ht, Except.map]⟩
      | error e =>
          obtain ⟨⟨k, ss⟩, hv⟩ := ih (a+1)
          by_cases hlt : a < retriesN
          · exact ⟨(k + 1, delay * (a : Int) :: ss),
              by simp [retryLoop, retryAttempt, tryExcept, ht, hlt, hv, Except.map]⟩
          · exact ⟨(k + 1, ss),
              by simp [retryLoop, retryAttempt, tryExcept, ht, hlt, hv, Except.map]⟩

/-- C5: for every task, every retries count n ≥ 1 and base delay d,
retry_with_backoff invokes the task at most n times, every invocation
before the stopping one failed (so it stops at the first success, or on
exhaustion), and the k-th retry is preceded by a sleep of exactly d * k
(linear backoff, attempt numbers from 1): the sleeps performed are
[d * 1, ..., d * (k - 1)] for k invocations. -/
theorem C5_linear_backoff {ε : Type} (task : Nat → Except ε Unit)
    (retries delay : Int) (h : 1 ≤ retries) :
    ∃ k ss, retry_with_backoff task retries delay = Except.ok (k, ss) ∧
      1 ≤ k ∧ (k : Int) ≤ retries ∧
      (∀ i, i < k - 1 → ∃ e, task (1 + i) = Except.error e) ∧
      (task k = Except.ok () ∨ (k : Int) = retries) ∧
      ss = (List.range (k - 1)).map (fun i : Nat => delay * (1 + (i : Int))) := by
  obtain ⟨k, ss, hrun, hkle, hfail, hlast, hss⟩ :=
    retryLoop_spec task retries.toNat delay retries.toNat 1 (by omega) (le_refl 1)
  have hr1 : 1 ≤ retries.toNat := by omega
  obtain ⟨hk1, hstop⟩ := hlast hr1
  refine ⟨k, ss, ?_, hk1, by omega, hfail, ?_, ?_⟩
  · unfold retry_with_backoff
    exact hrun
  · rcases hstop with hok | hkr
    · left
      have hidx : 1 + k - 1 = k := by omega
      rwa [hidx] at hok
    · right; omega
  · rw [hss]
    norm_num

/-- A task that raises on every invocation. -/
def failTask : Nat → Except Unit Unit := fun _ => Except.error ()

/-- Witness for C5 at retries = 2, delay = 5, with an always-failing task:
both attempts run and one backoff sleep of 5 seconds is performed. -/
theorem C5_linear_backoff_witness :
    ∃ k ss, retry_with_backoff failTask 2 5 = Except.ok (k, ss) ∧
      1 ≤ k ∧ (k : Int) ≤ 2 ∧
      (∀ i, i < k - 1 → ∃ e, failTask (1 + i) = Except.error e) ∧
      (failTask k = Except.ok () ∨ (k : Int) = 2) ∧
      ss = (List.range (k - 1)).map (fun i : Nat => 5 * (1 + (i : Int))) :=
  C5_linear_backoff failTask 2 5 (by norm_num)

/-- The poll loop of main_loop at the granularity of ticks: tick n runs
retry_with_backoff on that tick's task; an exception escaping a tick
would terminate the loop (asyncio.run would surface it), modelled by
error propagation. Returns the number of completed ticks. -/
def main_loop_ticks {ε : Type} (tasks : Nat → Nat → Except ε Unit)
    (retries delay : Int) : Nat → Except ε Nat
  | 0 => Except.ok 0
  | n+1 =>
    match main_loop_ticks tasks retries delay n with
    | Except.error e => Except.error e
    | Except.ok m =>
      match retry_with_backoff (tasks n) retries delay with
      | Except.error e => Except.error e
      | Except.ok _ => Except.ok (m + 1)

/-- C6: for every task — even one that raises on every invocation —
retry_with_backoff returns normally after all attempts have failed; it
never propagates an exception, so every scheduled tick of the poll loop
completes and the loop proceeds to the next one rather than terminating
the process. -/
theorem C6_failure_never_fatal {ε : Type} (tasks : Nat → Nat → Except ε Unit)
    (task : Nat → Except ε Unit) (retries delay : Int) :
    (∃ v, retry_with_backoff task retries delay = Except.ok v) ∧
    (∀ n, main_loop_ticks tasks retries delay n = Except.ok n) := by
  constructor
  · unfold retry_with_backoff
    exact retryLoop_isOk task retries.toNat delay retries.toNat 1
  · intro n
    induction n with
    | zero => rfl
    | succ m ih =>
        obtain ⟨v, hv⟩ : ∃ v, retry_with_backoff (tasks m) retries delay = Except.ok v := by
          unfold retry_with_backoff
          exact retryLoop_isOk (tasks m) retries.toNat delay retries.toNat 1
        simp [main_loop_ticks, ih, hv]

/-- C10: with retries = 0 (or any retries below 1) the range
range(1, retries + 1) is empty, so retry_with_backoff returns normally
without ever invoking the task, sleeping, or logging. -/
theorem C10_zero_retries_no_invocation {ε : Type} (task : Nat → Except ε Unit)
    (retries delay : Int) (h : retries < 1) :
    retry_with_backoff task retries delay = Except.ok (0, []) := by
  have h0 : retries.toNat = 0 := by omega
  unfold retry_with_backoff
  rw [h0]
  rfl

/-- Witness for C10 at retries = 0 with an always-failing task. -/
theorem C10_zero_retries_no_invocation_witness :
    retry_with_backoff failTask 0 5 = Except.ok (0, []) :=
  C10_zero_retries_no_invocation failTask 0 5 (by norm_num)

/-- One poll tick: retry_with_backoff applied to check_gas_price_and_notify
(source line 155), with the global state threaded through the attempts.
Attempt a uses fetch outcome frs a and chat environment envs a. A normal
return of the check breaks the retry loop; a raised exception is caught by
except Exception, logged, and (when iterations remain, i.e. when the
attempt number is below retries) followed by a backoff sleep of
delay * a, exactly as in retryLoop. Returns the final global state and
the sleeps performed. -/
def tickGo (cfg : Config) (envs : Nat → ChatEnv) (frs : Nat → FetchResult) (delay : Int) :
    Nat → Nat → NotifierState → NotifierState × List Int
  | _, 0, s => (s, [])
  | a, rem+1, s =>
    match check_gas_price_and_notify cfg (envs a) s (frs a) with
    | (CheckResult.normal _, s') => (s', [])
    | (CheckResult.raised, s') =>
      if rem = 0 then (s', [])
      else
        let t := tickGo cfg envs frs delay (a+1) rem s'
        (t.1, delay * (a : Int) :: t.2)

/-- A full tick: the retry loop over attempts 1 .. retries. -/
def tick (cfg : Config) (envs : Nat → ChatEnv) (frs : Nat → FetchResult)
    (retries delay : Int) (s : NotifierState) : NotifierState × List Int :=
  tickGo cfg envs frs delay 1 retries.toNat s

theorem tickGo_all_fetches_fail (cfg : Config) (envs : Nat → ChatEnv)
    (frs : Nat → FetchResult) (delay : Int)
    (hfail : ∀ a, frs a = FetchResult.httpError ∨ frs a = FetchResult.malformed) :
    ∀ (rem a : Nat) (s : NotifierState), (tickGo cfg envs frs delay a rem s).1 = s := by
  intro rem
  induction rem with
  | zero => intro a s; rfl
  | succ m ih =>
      intro a s
      rcases hfail a with hf | hf
      · simp [tickGo, check_gas_price_and_notify, hf]
      · by_cases hm : m = 0
        · subst hm
          simp [tickGo, check_gas_price_and_notify, hf]
        · simp [tickGo, check_gas_price_and_notify, hf, hm, ih]

theorem tick_all_fetches_fail (cfg : Config) (envs : Nat → ChatEnv)
    (frs : Nat → FetchResult) (retries delay : Int) (s : NotifierState)
    (hfail : ∀ a, frs a = FetchResult.httpError ∨ frs a = FetchResult.malformed) :
    (tick cfg envs frs retries delay s).1 = s :=
  tickGo_all_fetches_fail cfg envs frs delay hfail retries.toNat 1 s

/-- C4: on a check whose price fetch fails, the state machine is not
invoked and the state is untouched: a network/HTTP failure is caught and
only logged (the check returns normally, issuing no chat action), and a
malformed payload is logged and then raises (the NameError of line 128),
which the retry wrapper absorbs. A whole tick all of whose fetch attempts
fail therefore leaves (active_message_ref, last_price) unchanged without
crashing the poll loop, and the next successful fetch runs the transition
logic from exactly the prior committed state. -/
theorem C4_fetch_failure_leaves_state (cfg : Config) (env : ChatEnv)
    (s : NotifierState) (envs : Nat → ChatEnv) (frs : Nat → FetchResult)
    (retries delay : Int)
    (hfail : ∀ a, frs a = FetchResult.httpError ∨ frs a = FetchResult.malformed) :
    check_gas_price_and_notify cfg env s FetchResult.httpError
        = (CheckResult.normal ChatAction.noAction, s) ∧
    check_gas_price_and_notify cfg env s FetchResult.malformed
        = (CheckResult.raised, s) ∧
    (tick cfg envs frs retries delay s).1 = s ∧
    (∀ p, check_gas_price_and_notify cfg env (tick cfg envs frs retries delay s).1
          (FetchResult.ok p)
        = check_gas_price_and_notify cfg env s (FetchResult.ok p)) := by
  refine ⟨rfl, rfl, tick_all_fetches_fail cfg envs frs retries delay s hfail, ?_⟩
  intro p
  rw [tick_all_fetches_fail cfg envs frs retries delay s hfail]

/-- Witness for C4: a tick of two malformed-payload fetches from an
Alerting state with last_price 25 leaves that state untouched. -/
theorem C4_fetch_failure_leaves_state_witness :
    (tick { gas_fee_lower_threshold := 30, gas_fee_upper_threshold := 50 }
        (fun _ => { sendResult := Option.some 1, editOk := true, deleteOk := true })
        (fun _ => FetchResult.malformed) 2 5
        { last_message_id_in_range := Option.some 9, last_price := 25 }).1
      = { last_message_id_in_range := Option.some 9, last_price := 25 } :=
  (C4_fetch_failure_leaves_state
      { gas_fee_lower_threshold := 30, gas_fee_upper_threshold := 50 }
      { sendResult := Option.some 1, editOk := true, deleteOk := true }
      { last_message_id_in_range := Option.some 9, last_price := 25 }
      (fun _ => { sendResult := Option.some 1, editOk := true, deleteOk := true })
      (fun _ => FetchResult.malformed) 2 5
      (fun _ => Or.inr rfl)).2.2.1

/-- Timing parameters of main_loop: the configured inter-tick sleep
(check_interval, 300 seconds by default) and the duration of each tick
body (the retry_with_backoff call, including its backoff sleeps). -/
structure LoopConfig where
  check_interval : Nat
  tickDuration : Nat → Nat

/-- The time at which the while-loop condition is evaluated for the i-th
time: each iteration runs one tick and then one full inter-tick sleep. -/
def headTime (c : LoopConfig) : Nat → Nat
  | 0 => 0
  | i+1 => headTime c i + c.tickDuration i + c.check_interval

/-- Discrete-time model of main_loop (lines 154-156) under a shutdown
signal arriving at time sigTime. handle_shutdown (lines 159-162) only
sets shutdown_flag; nothing cancels the asyncio.sleep in flight, so the
tick body and the inter-tick sleep of an iteration always run to
completion and the flag is observed only at the next evaluation of the
while condition. The model steps one iteration per fuel unit from
iteration i at time t and returns the exit time and the number of ticks
started, or none if fuel runs out before the signal is observed. -/
def main_loop_run (c : LoopConfig) (sigTime : Nat) : Nat → Nat → Nat → Option (Nat × Nat)
  | 0, _, _ => Option.none
  | fuel+1, i, t =>
    if sigTime ≤ t then Option.some (t, i)
    else main_loop_run c sigTime fuel (i+1) (t + c.tickDuration i + c.check_interval)

/-- Decidably: every one of the first i ticks started strictly before the
signal arrived. -/
def ticksStartedBeforeSignal (c : LoopConfig) (sigTime : Nat) (i : Nat) : Bool :=
  (List.range i).all (fun j => decide (headTime c j < sigTime))

theorem main_loop_run_spec (c : LoopConfig) (s : Nat) :
    ∀ (fuel i τ₀ : Nat), τ₀ = headTime c i →
      (∀ j, j < i → headTime c j < s) →
      ∀ τ k, main_loop_run c s fuel i τ₀ = Option.some (τ, k) →
      τ = headTime c k ∧ s ≤ τ ∧ (∀ j, j < k → headTime c j < s) := by
  intro fuel
  induction fuel with
  | zero =>
      intro i τ₀ _ _ τ k h
      exact absurd h (by simp [main_loop_run])
  | succ f ih =>
      intro i τ₀ hτ hbefore τ k h
      by_cases hs : s ≤ τ₀
      · rw [main_loop_run, if_pos hs] at h
        obtain ⟨h1, h2⟩ : τ₀ = τ ∧ i = k := by simpa using h
        subst h1; subst h2
        exact ⟨hτ, hs, hbefore⟩
      · rw [main_loop_run, if_neg hs] at h
        refine ih (i+1) (τ₀ + c.tickDuration i + c.check_interval) ?_ ?_ τ k h
        · rw [hτ]; rfl
        · intro j hj
          rcases Nat.lt_succ_iff_lt_or_eq.mp hj with hj' | hj'
          · exact hbefore j hj'
          · subst hj'
            rw [← hτ]
            omega

/-- C9 counterexample: check_interval = 300, zero-duration ticks, signal
at time 1. The first inter-tick sleep spans [0, 300] and the signal
arrives while it is in flight, yet the loop exits only at time 300 — the
end of that full sleep, one whole interval later — not before it: the
in-flight sleep is not interruptible and shutdown is observed only after
the full interval elapses. -/
theorem C9_sleep_runs_to_completion :
    main_loop_run { check_interval := 300, tickDuration := fun _ => 0 } 1 10 0 0
      = Option.some (300, 1) ∧
    ¬ (300 < headTime { check_interval := 300, tickDuration := fun _ => 0 } 1) := by
  exact ⟨by decide, by decide⟩

/-- C9 (amended): once the shutdown flag is set no new tick starts — every
tick that ran began strictly before the signal, because the flag is
checked at the head of each iteration — but an in-flight sleep is not
interruptible: the flag only sets a variable, so the loop exits exactly
at the next loop-head time, i.e. only after the current tick (including
any retry backoff delays) and the full inter-tick sleep have run to
completion, a latency of up to one whole tick plus one whole interval
rather than within one sleep granularity. -/
theorem C9_shutdown_at_next_loop_head (c : LoopConfig) (sigTime fuel τ k : Nat)
    (h : main_loop_run c sigTime fuel 0 0 = Option.some (τ, k)) :
    τ = headTime c k ∧ sigTime ≤ τ ∧ ticksStartedBeforeSignal c sigTime k = true := by
  obtain ⟨h1, h2, h3⟩ := main_loop_run_spec c sigTime fuel 0 0 rfl
    (fun j hj => absurd hj (Nat.not_lt_zero j)) τ k h
  refine ⟨h1, h2, ?_⟩
  simp only [ticksStartedBeforeSignal, List.all_eq_true, List.mem_range,
    decide_eq_true_eq]
  exact fun j hj => h3 j hj

/-- Witness for C9 (amended) at the counterexample configuration. -/
theorem C9_shutdown_at_next_loop_head_witness :
    300 = headTime { check_interval := 300, tickDuration := fun _ => 0 } 1 ∧
    1 ≤ 300 ∧
    ticksStartedBeforeSignal { check_interval := 300, tickDuration := fun _ => 0 } 1 1
      = true :=
  C9_shutdown_at_next_loop_head { check_interval := 300, tickDuration := fun _ => 0 }
    1 10 300 1 (by decide)

end GasPriceChecker
